import Mathlib

/-!
# Verification of the facilitator dispatch pipeline

A shallow embedding of `app/services/openai_service.py` (and, for the
free-chat variant, the conversational handler described by the spec).
External capabilities (the generative model, Google Calendar, Google Drive,
the meet-link pool file) are modelled by an environment `Env` that records
the outcome of each call; Python exceptions are modelled by `PyErr` values
carried in `Except`, and each `try/except` of the source becomes an explicit
`match` on that outcome.  Python strings are modelled as `String`/`List Char`
with ASCII semantics for `str.strip`, `str.lower` and the `re` patterns used
by the source (the source only ever feeds them ASCII prompts and labels).
-/

/-- Python `str.isspace` characters relevant to `str.strip` / regex `\s`
(ASCII fragment, which is all the source ever produces). -/
def isPySpace (c : Char) : Bool :=
  c = ' ' || c = '\t' || c = '\n' || c = '\r' || c = '\x0b' || c = '\x0c'

/-- Python `str.strip()` on a character list. -/
def stripChars (l : List Char) : List Char :=
  ((l.dropWhile isPySpace).reverse.dropWhile isPySpace).reverse

/-- Python `str.strip()`. -/
def pyStrip (s : String) : String := ⟨stripChars s.data⟩

/-- Python `str.lower()` (ASCII fragment). -/
def pyLowerChar (c : Char) : Char :=
  if 'A' ≤ c ∧ c ≤ 'Z' then Char.ofNat (c.toNat + 32) else c

/-- Python `str.lower()` (ASCII fragment). -/
def pyLower (s : String) : String := ⟨s.data.map pyLowerChar⟩

/-- Python truthiness of an optional string (`if x:` with `x` either `None`
or a `str`): `None` and the empty string are falsy. -/
def pyTruthyOpt : Option String → Bool
  | some s => s ≠ ""
  | none => false

/-- Python `str(x)` of an optional string (an f-string renders `None` as
the text `"None"`). -/
def pyShowOpt : Option String → String
  | some s => s
  | none => "None"

/-- `os.path.splitext(p)[1]` (POSIX): the extension after the last dot of the
basename, empty when that dot is absent or only dots stand before it. -/
def splitextExt (p : String) : String :=
  let base := ((p.data.reverse.takeWhile (· ≠ '/'))).reverse
  let rev := base.reverse
  let extRev := rev.takeWhile (· ≠ '.')
  if extRev.length = rev.length then ""
  else
    let before := rev.drop (extRev.length + 1)
    if before.any (· ≠ '.') then ⟨'.' :: extRev.reverse⟩ else ""

/-- A Python exception: its class name and its `str(e)` text. -/
structure PyErr where
  kind : String
  msg : String
deriving DecidableEq, Repr

/-- Configuration read from the environment at process start
(`SHARED_FOLDER_ID` and the five `FOLDER_ID_*` variables; an unset variable
is `None`). -/
structure Cfg where
  shared_folder_id : Option String
  folder_id_college_daa : Option String
  folder_id_college_sdam : Option String
  folder_id_college_misc : Option String
  folder_id_personal_docs : Option String
  folder_id_personal_misc : Option String
deriving DecidableEq, Repr

/-- `FOLDER_MAP.get(key)`: the five fixed keys map to their configured ids
(possibly `None`), every other key to `None`. -/
def folderMapGet (cfg : Cfg) (k : String) : Option String :=
  if k = "college_daa" then cfg.folder_id_college_daa
  else if k = "college_sdam" then cfg.folder_id_college_sdam
  else if k = "college_misc" then cfg.folder_id_college_misc
  else if k = "personal_docs" then cfg.folder_id_personal_docs
  else if k = "personal_misc" then cfg.folder_id_personal_misc
  else none

/-- Outcomes of the external calls a single `generate_response` run can make.
Each field is the result the corresponding capability would deliver; an
`Except.error` models the call raising. -/
structure Env where
  cfg : Cfg
  /-- Intent-classification chat completion: the raw reply text. -/
  intentReply : Except PyErr String
  /-- Folder-classification chat completion: the raw reply text. -/
  folderReply : Except PyErr String
  /-- Detail-extraction chat completion: the raw reply text. -/
  extractReply : Except PyErr String
  /-- The meet-link pool file: `none` means the file does not exist
  (`FileNotFoundError` on open); `some lines` are its lines (without the
  terminating newlines). -/
  poolState : Option (List String)
  /-- When `some e`, opening or reading the pool file raises `e`
  (permission or IO error) even though the file exists. -/
  poolReadErr : Option PyErr
  /-- Fallback Meet-link API: the created event's first entry-point `uri`
  (`none` when the event carries no conference link). -/
  meetApi : Except PyErr (Option String)
  /-- Google Calendar credential parse + service build. -/
  calAuth : Except PyErr Unit
  /-- Calendar `events().insert(...).execute()`: the event's `htmlLink`. -/
  calendarInsert : Except PyErr String
  /-- Drive upload (`authenticate` + `MediaFileUpload` + `create`): the
  uploaded file's id. -/
  driveOutcome : Except PyErr String
deriving Repr

/-- One observable external effect of a run, in order of occurrence. -/
inductive Call where
  /-- Intent-classification chat completion (attempted). -/
  | classifyIntent
  /-- Folder-classification chat completion (attempted). -/
  | classifyFolder
  /-- Detail-extraction chat completion (attempted). -/
  | extractDetails
  /-- Calendar event insertion (attempted). -/
  | calendarInsert
  /-- Drive upload (attempted), with the `parents` field of the metadata
  it sends. -/
  | driveUpload (parents : Option (List String))
  /-- Meet-link fallback API event insertion (attempted). -/
  | meetApiInsert
  /-- Opening the pool file for reading. -/
  | poolRead
  /-- Rewriting the pool file. -/
  | poolWrite
deriving DecidableEq, Repr

/-!
## The regex fragment used by `extract_event_details`

The source parses the model reply with five independent `re.search` calls:

* `Title:\s*(.+)`, `Location:\s*(.+)`, `Notes:\s*(.+)`
* `Date:\s*([\d]{4}-[\d]{2}-[\d]{2}|Not provided)`
* `Time:\s*([\d:]+\s*[APMapm]+|All Day|Not provided)`

`re.search` tries each start position from the left; every pattern starts
with a fixed literal, so a match can only start at an occurrence of that
literal, and on failure the scan resumes one character further right.
`\s` matches Python whitespace (it does cross newlines), `.` matches
anything but a newline.  Greedy backtracking collapses, for each pattern,
to the closed forms implemented below (see the comments on each).
-/

/-- `\s*(.+)` at a fixed position (the part of `Title:\s*(.+)` after the
literal).  `\s*` takes the maximal whitespace run; if a character follows it
is not whitespace (hence not a newline) and `(.+)` greedily captures the
rest of that line.  If the whitespace run reaches the end of the string,
the engine backtracks to the last non-newline character of the run (if any)
and `(.+)` captures from there. -/
def dotAfter (s : List Char) : Option (List Char) :=
  let b := s.dropWhile isPySpace
  match b with
  | _ :: _ => some (b.takeWhile (· ≠ '\n'))
  | [] =>
    match s.reverse.dropWhile (· = '\n') with
    | [] => none
    | c :: _ => some [c]

/-- Check a list of single-character conditions against the leading
characters of a string (failing when the string is too short). -/
def checksAt : List (Char → Bool) → List Char → Bool
  | [], _ => true
  | _ :: _, [] => false
  | p :: ps, c :: cs => p c && checksAt ps cs

/-- The ten positional checks of `[\d]{4}-[\d]{2}-[\d]{2}`. -/
def ymdSpec : List (Char → Bool) :=
  [Char.isDigit, Char.isDigit, Char.isDigit, Char.isDigit, (· = '-'),
   Char.isDigit, Char.isDigit, (· = '-'), Char.isDigit, Char.isDigit]

/-- The `[\d]{4}-[\d]{2}-[\d]{2}` alternative of the `Date:` group: it
examines exactly the first ten characters. -/
def ymdOK (l : List Char) : Bool := checksAt ymdSpec l

/-- `\s*([\d]{4}-[\d]{2}-[\d]{2}|Not provided)` at a fixed position.  Both
group alternatives start with a non-whitespace character, so only the
maximal `\s*` run can precede a group match (no backtracking into `\s*`). -/
def dateAfter (s : List Char) : Option (List Char) :=
  let b := s.dropWhile isPySpace
  if ymdOK b then some (b.take 10)
  else if "Not provided".data.isPrefixOf b then some "Not provided".data
  else none

/-- Characters of the `[\d:]` class. -/
def isDigitColon (c : Char) : Bool := c.isDigit || c = ':'

/-- Characters of the `[APMapm]` class. -/
def isAPM (c : Char) : Bool :=
  c = 'A' || c = 'P' || c = 'M' || c = 'a' || c = 'p' || c = 'm'

/-- `\s*([\d:]+\s*[APMapm]+|All Day|Not provided)` at a fixed position.
For the first alternative the three greedy pieces never profit from
backtracking (a shorter `[\d:]+` leaves a digit or colon where whitespace or
an `[APMapm]` character is required, and a shorter inner `\s*` leaves a
whitespace character where `[APMapm]` is required), so the alternative
succeeds exactly when the maximal runs of its three pieces give both
one-or-more runs, and then captures their concatenation. -/
def timeAfter (s : List Char) : Option (List Char) :=
  let b := s.dropWhile isPySpace
  let run1 := b.takeWhile isDigitColon
  let b1 := b.dropWhile isDigitColon
  let ws := b1.takeWhile isPySpace
  let b2 := b1.dropWhile isPySpace
  let run2 := b2.takeWhile isAPM
  if run1 ≠ [] ∧ run2 ≠ [] then some (run1 ++ ws ++ run2)
  else if "All Day".data.isPrefixOf b then some "All Day".data
  else if "Not provided".data.isPrefixOf b then some "Not provided".data
  else none

/-- `re.search` for a pattern `lit` + `after`: try every start position from
the left; at a position the pattern can match only if the literal `lit` is a
prefix there and `after` succeeds on the remainder. -/
def reSearch (lit : List Char) (after : List Char → Option (List Char)) :
    List Char → Option (List Char)
  | [] => none
  | c :: rest =>
    match (if lit.isPrefixOf (c :: rest) then after (List.drop lit.length (c :: rest))
           else none) with
    | some cap => some cap
    | none => reSearch lit after rest

/-- The typed record `extract_event_details` builds (its Python dict). -/
structure EventDetails where
  title : String
  date : Option String
  time : String
  location : String
  notes : String
deriving DecidableEq, Repr

/-- The pure parsing part of `extract_event_details`: the five regex
searches over the model reply and the sentinel logic of the dict literal
(lines 92-105 of the source). -/
def parseEventDetails (text : String) : EventDetails :=
  let s := text.data
  let titleM := reSearch "Title:".data dotAfter s
  let dateM := reSearch "Date:".data dateAfter s
  let timeM := reSearch "Time:".data timeAfter s
  let locM := reSearch "Location:".data dotAfter s
  let notesM := reSearch "Notes:".data dotAfter s
  { title := match titleM with
      | some cap => ⟨stripChars cap⟩
      | none => "Not provided"
    date := match dateM with
      | some cap => if cap ≠ "Not provided".data then some ⟨stripChars cap⟩ else none
      | none => none
    time := match timeM with
      | some cap => if cap ≠ "Not provided".data then ⟨stripChars cap⟩ else "All Day"
      | none => "All Day"
    location := match locM with
      | some cap => ⟨stripChars cap⟩
      | none => "Not provided"
    notes := match notesM with
      | some cap => ⟨stripChars cap⟩
      | none => "Not provided" }

/-- `extract_event_details`: the generative call either raises (caught,
yielding `None`) or returns a reply that is parsed totally. -/
def extract_event_details (env : Env) : Option EventDetails :=
  match env.extractReply with
  | .error _ => none
  | .ok text => some (parseEventDetails text)

/-!
## `datetime.strptime(.., "%Y-%m-%d %I:%M %p")` and the calendar start/end

CPython compiles the format to the regex
`(?P<Y>\d\d\d\d)-(?P<m>1[0-2]|0[1-9]|[1-9])-(?P<d>3[01]|[12]\d|0[1-9]|[1-9])\s+(?P<I>1[0-2]|0[1-9]|[1-9]):(?P<M>[0-5]\d|\d)\s+(?P<p>am|pm)`
(case-insensitive `%p`, `\s+` for the literal spaces) and requires it to
match the whole string; the resulting `datetime` constructor additionally
validates the day against the month length.  The ordered alternatives are
modelled as candidate lists tried in regex order with full backtracking.
-/

/-- Try each candidate in order, keeping the first success. -/
def firstSome (xs : List α) (f : α → Option β) : Option β :=
  match xs with
  | [] => none
  | a :: rest =>
    match f a with
    | some b => some b
    | none => firstSome rest f

/-- Digit value of a character (only used under `isDigit`). -/
def digitVal (c : Char) : Nat := c.toNat - 48

/-- `(?P<Y>\d\d\d\d)`: exactly four digits. -/
def readY4 (l : List Char) : List (Nat × List Char) :=
  match l with
  | a :: b :: c :: d :: rest =>
    if a.isDigit && b.isDigit && c.isDigit && d.isDigit then
      [(((digitVal a * 10 + digitVal b) * 10 + digitVal c) * 10 + digitVal d, rest)]
    else []
  | _ => []

/-- `1[0-2]|0[1-9]|[1-9]` (used for `%m` and `%I`), candidates in regex
order. -/
def read12 (l : List Char) : List (Nat × List Char) :=
  (match l with
   | a :: b :: rest =>
     (if a = '1' && '0' ≤ b && b ≤ '2' then [(10 + digitVal b, rest)] else []) ++
     (if a = '0' && '1' ≤ b && b ≤ '9' then [(digitVal b, rest)] else [])
   | _ => []) ++
  (match l with
   | a :: rest => if '1' ≤ a && a ≤ '9' then [(digitVal a, rest)] else []
   | _ => [])

/-- `3[01]|[12]\d|0[1-9]|[1-9]` (`%d`), candidates in regex order. -/
def readDay (l : List Char) : List (Nat × List Char) :=
  (match l with
   | a :: b :: rest =>
     (if a = '3' && ('0' ≤ b && b ≤ '1') then [(30 + digitVal b, rest)] else []) ++
     (if ('1' ≤ a && a ≤ '2') && b.isDigit then [(digitVal a * 10 + digitVal b, rest)] else []) ++
     (if a = '0' && '1' ≤ b && b ≤ '9' then [(digitVal b, rest)] else [])
   | _ => []) ++
  (match l with
   | a :: rest => if '1' ≤ a && a ≤ '9' then [(digitVal a, rest)] else []
   | _ => [])

/-- `[0-5]\d|\d` (`%M`), candidates in regex order. -/
def readMin (l : List Char) : List (Nat × List Char) :=
  (match l with
   | a :: b :: rest =>
     if ('0' ≤ a && a ≤ '5') && b.isDigit then [(digitVal a * 10 + digitVal b, rest)] else []
   | _ => []) ++
  (match l with
   | a :: rest => if a.isDigit then [(digitVal a, rest)] else []
   | _ => [])

/-- `\s+`: one or more whitespace characters.  Both pieces that follow it in
this format start with a digit, so only the maximal run matters. -/
def readWs1 (l : List Char) : List (Unit × List Char) :=
  match l.takeWhile isPySpace with
  | [] => []
  | _ :: _ => [((), l.dropWhile isPySpace)]

/-- `(?P<p>am|pm)`, case-insensitive. -/
def readAmPm (l : List Char) : List (Bool × List Char) :=
  match l with
  | a :: b :: rest =>
    if (a = 'a' || a = 'A') && (b = 'm' || b = 'M') then [(false, rest)]
    else if (a = 'p' || a = 'P') && (b = 'm' || b = 'M') then [(true, rest)]
    else []
  | _ => []

/-- Days in a month (the `datetime` constructor's validation). -/
def daysInMonth (y m : Nat) : Nat :=
  if m = 2 then (if y % 4 = 0 && (y % 100 ≠ 0 || y % 400 = 0) then 29 else 28)
  else if m = 4 || m = 6 || m = 9 || m = 11 then 30 else 31

/-- `datetime.strptime(s, "%Y-%m-%d %I:%M %p")`, returning the naive
`(year, month, day, hour24, minute)` or `none` (a `ValueError`, caught by
the source).  `%I` + `%p` convert as CPython does: `12 AM → 0`,
`12 PM → 12`, otherwise `PM` adds twelve. -/
def strptimeYmdImp (s : String) : Option (Nat × Nat × Nat × Nat × Nat) :=
  let l := s.data
  firstSome (readY4 l) fun (y, r1) =>
  match r1 with
  | '-' :: r2 =>
    firstSome (read12 r2) fun (mo, r3) =>
    match r3 with
    | '-' :: r4 =>
      firstSome (readDay r4) fun (da, r5) =>
      firstSome (readWs1 r5) fun (_, r6) =>
      firstSome (read12 r6) fun (h12, r7) =>
      match r7 with
      | ':' :: r8 =>
        firstSome (readMin r8) fun (mi, r9) =>
        firstSome (readWs1 r9) fun (_, r10) =>
        firstSome (readAmPm r10) fun (pm, r11) =>
        if r11 = [] ∧ 1 ≤ da ∧ da ≤ daysInMonth y mo then
          let h := if pm then (if h12 = 12 then 12 else h12 + 12)
                   else (if h12 = 12 then 0 else h12)
          some (y, mo, da, h, mi)
        else none
      | _ => none
    | _ => none
  | _ => none

/-- Zero-padded decimal rendering (`%H`, `%M`, `%S`, `%m`, `%d`). -/
def pad2 (n : Nat) : String := (if n < 10 then "0" else "") ++ toString n

/-- Zero-padded four-digit year (`%Y`). -/
def pad4 (n : Nat) : String :=
  (if n < 10 then "000" else if n < 100 then "00" else if n < 1000 then "0" else "")
    ++ toString n

/-- `ist.localize(dt).strftime("%Y-%m-%dT%H:%M:%S%z")`: pytz's
`Asia/Kolkata` offset is +05:30 for every post-1945 civil date, and
`strftime`'s `%z` renders it without a colon, as `+0530`; seconds are zero
because the format parsed none. -/
def fmtEventDatetime : Nat × Nat × Nat × Nat × Nat → String
  | (y, mo, da, h, mi) =>
    pad4 y ++ "-" ++ pad2 mo ++ "-" ++ pad2 da ++ "T" ++ pad2 h ++ ":" ++ pad2 mi
      ++ ":00+0530"

/-- A Google Calendar start/end structure: either a timed point
(`{"dateTime": .., "timeZone": ..}`) or an all-day date (`{"date": ..}`). -/
inductive GTime where
  | dateTime (dt : String) (timeZone : String)
  | date (d : String)
deriving DecidableEq, Repr

/-- The start/end structures `schedule_google_calendar_event` builds (lines
126-150 of the source): `none` models the early `return None` branches (no
truthy date, or a date/time parse error). -/
def buildStartEnd (d : EventDetails) : Option (GTime × GTime) :=
  match d.date with
  | some ds =>
    if ds ≠ "" then
      if d.time ≠ "All Day" then
        match strptimeYmdImp (ds ++ " " ++ d.time) with
        | some t =>
          some (GTime.dateTime (fmtEventDatetime t) "Asia/Kolkata",
                GTime.dateTime (fmtEventDatetime t) "Asia/Kolkata")
        | none => none
      else some (GTime.date ds, GTime.date ds)
    else none
  | none => none

/-- The record `schedule_google_calendar_event` returns on success. -/
structure Sched where
  title : String
  date : String
  time : String
  location : String
  notes : String
  event_link : String
deriving DecidableEq, Repr

/-- `schedule_google_calendar_event`: authenticate (any raise is caught,
returning `None`), build the start/end structures (`None` on missing date or
parse error), insert the event (any raise caught, `None`), else return the
summary record.  The second component records whether the insert call was
attempted. -/
def schedule_google_calendar_event (env : Env) (d : EventDetails) :
    Option Sched × Bool :=
  match env.calAuth with
  | .error _ => (none, false)
  | .ok _ =>
    match buildStartEnd d with
    | none => (none, false)
    | some _ =>
      match env.calendarInsert with
      | .error _ => (none, true)
      | .ok link =>
        (some { title := d.title
                date := d.date.getD ""
                time := d.time
                location := d.location
                notes := d.notes
                event_link := link }, true)

/-!
## Meet-link pool, Drive upload, and the dispatch pipeline
-/

/-- Result of `generate_meet_link`: the returned value (`none` models the
Python function falling off its end and returning `None`), the pool file's
state afterwards, and the external effects performed. -/
structure MeetResult where
  link : Option String
  poolAfter : Option (List String)
  calls : List Call
deriving Repr

/-- The API-fallback tail of `generate_meet_link` (lines 237-281): the
created event's conference uri, or one of the three fixed failure strings
(`HttpError` and the generic handler return different texts). -/
def fallbackResult (api : Except PyErr (Option String)) : String :=
  match api with
  | .ok (some uri) => uri
  | .ok none => "No Meet link generated."
  | .error e =>
    if e.kind = "HttpError" then "Error generating Google Meet link using Google API."
    else "Error generating Google Meet link."

/-- `generate_meet_link(provider)`: for `"google"`, read the pool file's
non-blank stripped lines; if any, pop the head, rewrite the rest (one per
line) and return the head; on a missing/unreadable/empty file fall back to
the API path.  For any other provider the function body is skipped entirely
and Python returns `None`.  (The rewrite of the remaining links is modelled
as succeeding; read failures are injected through `Env.poolReadErr`.) -/
def generate_meet_link (env : Env) (provider : String) : MeetResult :=
  if provider = "google" then
    match env.poolReadErr with
    | some _ =>
      { link := some (fallbackResult env.meetApi)
        poolAfter := env.poolState
        calls := [.poolRead, .meetApiInsert] }
    | none =>
      match env.poolState with
      | none =>
        { link := some (fallbackResult env.meetApi)
          poolAfter := none
          calls := [.poolRead, .meetApiInsert] }
      | some lines =>
        match (lines.map pyStrip).filter (fun l => l ≠ "") with
        | [] =>
          { link := some (fallbackResult env.meetApi)
            poolAfter := some lines
            calls := [.poolRead, .meetApiInsert] }
        | link :: rest =>
          { link := some link
            poolAfter := some rest
            calls := [.poolRead, .poolWrite] }
  else { link := none, poolAfter := env.poolState, calls := [] }

/-- Result of `upload_file_response`: the user-facing message and the
`parents` list put into the Drive metadata (present exactly when the
`folder_id` argument is truthy). -/
structure UploadOutcome where
  message : String
  parents : Option (List String)
deriving DecidableEq, Repr

/-- `upload_file_response(file_path, mime_type, folder_id)` (lines 285-322):
builds the metadata (`parents` only for a truthy folder id), uploads, and
returns a confirmation message with the file link (plus a folder link when a
folder id was given); any raise is caught and converted into
`f"Error uploading file: {e}"`, which interpolates the exception's text. -/
def upload_file_response (env : Env) (file_path mime_type : String)
    (folder_id : Option String) : UploadOutcome :=
  let parents := if pyTruthyOpt folder_id then some [folder_id.getD ""] else none
  match env.driveOutcome with
  | .ok fid =>
    let base := "✅ File uploaded. File link: https://drive.google.com/file/d/" ++ fid ++ "/view"
    { message :=
        if pyTruthyOpt folder_id then
          base ++ "\n📁 File was uploaded into folder: https://drive.google.com/drive/folders/"
            ++ folder_id.getD ""
        else base
      parents := parents }
  | .error e => { message := "Error uploading file: " ++ e.msg, parents := parents }

/-- Result of a full `generate_response` run: the returned value (still an
`Except` so that an uncaught exception would be visible as `.error`), the
pool file state afterwards, and the external effects in order. -/
structure RunResult where
  response : Except PyErr String
  poolAfter : Option (List String)
  calls : List Call
deriving Repr

/-- `generate_response(message_body, wa_id, name, local_file_path)` (lines
325-456): classify the intent (a raise is caught and answered with a fixed
text), then dispatch on the stripped, lowered label to the
feedback/upload/meet/calendar handlers, with the final fixed fallback text
for any other label. -/
def generate_response (env : Env) (message_body wa_id name : String)
    (local_file_path : Option String) : RunResult :=
  match env.intentReply with
  | .error _ =>
    { response := .ok "Could not determine the intent of your message."
      poolAfter := env.poolState
      calls := [.classifyIntent] }
  | .ok raw =>
    let intent := pyLower (pyStrip raw)
    if intent = "feedback" then
      { response := .ok "Understood—thank you for your feedback. We’ll keep improving!"
        poolAfter := env.poolState
        calls := [.classifyIntent] }
    else if intent = "upload" then
      match local_file_path with
      | none =>
        { response := .ok "No file available for upload. Please attach a file."
          poolAfter := env.poolState
          calls := [.classifyIntent] }
      | some path =>
        let folder_id : Option String :=
          match env.folderReply with
          | .ok key => folderMapGet env.cfg (pyStrip key)
          | .error _ => none
        let ext := pyLower (splitextExt path)
        let mime := if ext = ".txt" then "text/plain" else "application/octet-stream"
        let u := upload_file_response env path mime folder_id
        { response := .ok u.message
          poolAfter := env.poolState
          calls := [.classifyIntent, .classifyFolder, .driveUpload u.parents] }
    else if intent = "meet" then
      let m := generate_meet_link env "google"
      { response := .ok ("🔗 **Google Meet Link:** " ++ pyShowOpt m.link)
        poolAfter := m.poolAfter
        calls := .classifyIntent :: m.calls }
    else if intent = "calendar" then
      match extract_event_details env with
      | none =>
        { response := .ok "Could not extract valid event details. Please provide a clear date for the reminder."
          poolAfter := env.poolState
          calls := [.classifyIntent, .extractDetails] }
      | some d =>
        if ¬ pyTruthyOpt d.date then
          { response := .ok "Could not extract valid event details. Please provide a clear date for the reminder."
            poolAfter := env.poolState
            calls := [.classifyIntent, .extractDetails] }
        else
          match schedule_google_calendar_event env d with
          | (some ev, att) =>
            { response := .ok ("📅 **Reminder Scheduled**\n\n**Title:** " ++ ev.title
                ++ "\n**Date:** " ++ ev.date ++ "\n**Time:** " ++ ev.time
                ++ "\n**Location:** " ++ ev.location ++ "\n**Notes:** " ++ ev.notes
                ++ "\n🔗 [View in Google Calendar](" ++ ev.event_link ++ ")")
              poolAfter := env.poolState
              calls := [.classifyIntent, .extractDetails] ++ (if att then [.calendarInsert] else []) }
          | (none, att) =>
            { response := .ok "Failed to schedule the event in Google Calendar. Please try again."
              poolAfter := env.poolState
              calls := [.classifyIntent, .extractDetails] ++ (if att then [.calendarInsert] else []) }
    else
      { response := .ok "Sorry, I did not understand your request. Please try again with a valid instruction."
        poolAfter := env.poolState
        calls := [.classifyIntent] }

/-!
## Conversational free-chat mode (spec §4.6)
-/

/-- One conversation turn. -/
structure ChatTurn where
  role : String
  content : String
deriving DecidableEq, Repr

/-- The fixed apology returned when the generative call fails mid-exchange
in free-chat mode. -/
def chatApologyText : String :=
  "Sorry, I could not process your message. Please try again."

/-- Modelled from the spec: the conversational free-chat handler of §4.6 is
not present under `src/` (only the structured-intent pipeline is), so it is
modelled from the spec's words: retrieve or create the user's history
(seeding the fixed persona system turn on first contact), append the inbound
user turn, call the generative capability on the full history; on success
append the assistant turn and return the reply, on failure return a fixed
apology string — in both cases the history as extended by the user turn is
what gets persisted (the user turn is not rolled back). -/
def run_free_chat (persona : String) (store : List ChatTurn) (userMsg : String)
    (gen : Except PyErr String) : String × List ChatTurn :=
  let seeded := if store = [] then [⟨"system", persona⟩] else store
  let withUser := seeded ++ [⟨"user", userMsg⟩]
  match gen with
  | .ok reply => (reply, withUser ++ [⟨"assistant", reply⟩])
  | .error _ => (chatApologyText, withUser)

/-!
## Occurrence machinery for the C4 analysis

`re.search` can match a literal-headed pattern only where the literal
occurs; `hasOccur` decides whether it occurs anywhere, `clash` and
`clashAll` certify concrete non-occurrence through a fixed prefix, and the
`reply*` constructors build the five-line (resp. four-line) replies of the
amended C4 schema.
-/

/-- Does `lit` occur (as a contiguous sublist) anywhere in the string? -/
def hasOccur (lit : List Char) : List Char → Bool
  | [] => lit.isPrefixOf []
  | c :: rest => lit.isPrefixOf (c :: rest) || hasOccur lit rest

/-- `clash lit q = true` certifies a character mismatch between `lit` and
`q` within their common length — so `lit` is not a prefix of `q ++ r` for
any `r`. -/
def clash : List Char → List Char → Bool
  | a :: as_, b :: bs => a ≠ b || clash as_ bs
  | _, _ => false

/-- `clashAll lit p = true` certifies such a mismatch at every start
position inside `p`, so no occurrence of `lit` can begin inside `p`
whatever follows `p`. -/
def clashAll (lit : List Char) : List Char → Bool
  | [] => true
  | c :: rest => clash lit (c :: rest) && clashAll lit rest

/-- A line `"<Label>: " ++ content` of the structured five-line reply. -/
def labelLine (label : String) (content : List Char) : List Char :=
  label.data ++ content

/-- The five-line reply `Title/Date/Time/Location/Notes` of the amended C4
schema. -/
def replyAll (t d ti lo n : List Char) : List Char :=
  labelLine "Title: " t ++ '\n' ::
    (labelLine "Date: " d ++ '\n' ::
      (labelLine "Time: " ti ++ '\n' ::
        (labelLine "Location: " lo ++ '\n' :: labelLine "Notes: " n)))

/-- The same reply with the `Location:` line removed. -/
def replyNoLoc (t d ti n : List Char) : List Char :=
  labelLine "Title: " t ++ '\n' ::
    (labelLine "Date: " d ++ '\n' ::
      (labelLine "Time: " ti ++ '\n' :: labelLine "Notes: " n))

/-- Well-formed field content of the amended C4 schema: nonempty, entirely
on its own line, not starting with whitespace, and containing none of the
five field labels. -/
def goodContent (c : List Char) : Bool :=
  (match c with | [] => false | x :: _ => !isPySpace x) &&
  c.all (· ≠ '\n') &&
  !hasOccur "Title:".data c &&
  !hasOccur "Date:".data c &&
  !hasOccur "Time:".data c &&
  !hasOccur "Location:".data c &&
  !hasOccur "Notes:".data c

/-!
## Shared concrete instances used by witnesses
-/

/-- A concrete configuration with every folder id set. -/
def cfgW : Cfg :=
  { shared_folder_id := some "SHARED"
    folder_id_college_daa := some "DAA"
    folder_id_college_sdam := some "SDAM"
    folder_id_college_misc := some "CMISC"
    folder_id_personal_docs := some "PDOCS"
    folder_id_personal_misc := some "PMISC" }

/-- A concrete environment where every capability succeeds. -/
def envW : Env :=
  { cfg := cfgW
    intentReply := .ok "meet"
    folderReply := .ok "college_daa"
    extractReply := .ok "Title: S\nDate: 2025-03-10\nTime: 09:00 AM\nLocation: O\nNotes: N"
    poolState := some ["https://meet.google.com/aaa-bbbb-ccc"]
    poolReadErr := none
    meetApi := .ok (some "https://meet.google.com/new-link-xyz")
    calAuth := .ok ()
    calendarInsert := .ok "https://calendar.google.com/event"
    driveOutcome := .ok "FID123" }

/-- The `EventDetails` of C3's scenario with an explicit time. -/
def edTimed : EventDetails :=
  { title := "Standup", date := some "2025-03-10", time := "09:00 AM"
    location := "Office", notes := "-" }

/-- The `EventDetails` of C3's scenario with `time = "All Day"`. -/
def edAllDay : EventDetails :=
  { title := "Standup", date := some "2025-03-10", time := "All Day"
    location := "Office", notes := "-" }

/-!
## Claim theorems
-/

/-- **C1.** For every environment (hence for every combination of
success/raise outcomes of the intent classification, detail extraction,
scheduling, upload, pool access and link-issuance calls), every message,
user id, name and optional file path, `generate_response` returns `.ok` of
some string: no exception propagates to the caller. -/
theorem generate_response_total (env : Env) (mb wa nm : String)
    (fp : Option String) :
    ∃ s : String, (generate_response env mb wa nm fp).response = .ok s := by
  unfold generate_response
  rcases env.intentReply with e | raw
  · exact ⟨_, rfl⟩
  · dsimp only
    split
    · exact ⟨_, rfl⟩
    split
    · rcases fp with _ | path
      · exact ⟨_, rfl⟩
      · exact ⟨_, rfl⟩
    split
    · exact ⟨_, rfl⟩
    split
    · rcases h : extract_event_details env with _ | d
      · exact ⟨_, rfl⟩
      · dsimp only
        split
        · exact ⟨_, rfl⟩
        · rcases hs : schedule_google_calendar_event env d with ⟨_ | ev, att⟩
          · exact ⟨_, rfl⟩
          · exact ⟨_, rfl⟩
    · exact ⟨_, rfl⟩

/-- **C10.** For every provider other than `"google"`, `generate_meet_link`
skips both the file-pool path and the API fallback and falls off the end of
the function, returning Python `None` (modelled as `none`): no link, no
fallback, no fixed failure string, no effect on the pool, no external call —
despite the docstring's contract of always returning a Meet-link URL
string. -/
theorem meet_link_other_provider_none (env : Env) (p : String)
    (hp : p ≠ "google") :
    (generate_meet_link env p).link = none ∧
    (generate_meet_link env p).poolAfter = env.poolState ∧
    (generate_meet_link env p).calls = [] := by
  unfold generate_meet_link
  simp [hp]

/-- Witness for C10 at `provider = "zoom"`. -/
theorem meet_link_other_provider_none_witness :
    ("zoom" : String) ≠ "google" ∧
    (generate_meet_link envW "zoom").link = none ∧
    (generate_meet_link envW "zoom").poolAfter = envW.poolState ∧
    (generate_meet_link envW "zoom").calls = [] :=
  ⟨by decide, meet_link_other_provider_none envW "zoom" (by decide)⟩

/-- **C7.** When the intent-classification call raises, `generate_response`
returns the fixed failure text (`"Could not determine the intent of your
message."`, a constant independent of the exception), takes no handler
branch, performs no further external call and leaves the pool untouched. -/
theorem classification_failure_fixed_text (env : Env) (mb wa nm : String)
    (fp : Option String) (e : PyErr) (h : env.intentReply = .error e) :
    (generate_response env mb wa nm fp).response =
      .ok "Could not determine the intent of your message." ∧
    (generate_response env mb wa nm fp).poolAfter = env.poolState ∧
    (generate_response env mb wa nm fp).calls = [.classifyIntent] := by
  unfold generate_response
  rw [h]
  exact ⟨rfl, rfl, rfl⟩

/-- Witness for C7: a concrete environment whose classification call raises. -/
theorem classification_failure_fixed_text_witness :
    ({ envW with intentReply := .error ⟨"APIError", "boom"⟩ } : Env).intentReply
      = .error ⟨"APIError", "boom"⟩ ∧
    (generate_response { envW with intentReply := .error ⟨"APIError", "boom"⟩ }
        "hi" "wa1" "Ann" none).response =
      .ok "Could not determine the intent of your message." ∧
    (generate_response { envW with intentReply := .error ⟨"APIError", "boom"⟩ }
        "hi" "wa1" "Ann" none).poolAfter =
      ({ envW with intentReply := .error ⟨"APIError", "boom"⟩ } : Env).poolState ∧
    (generate_response { envW with intentReply := .error ⟨"APIError", "boom"⟩ }
        "hi" "wa1" "Ann" none).calls = [.classifyIntent] :=
  ⟨rfl, classification_failure_fixed_text _ "hi" "wa1" "Ann" none ⟨"APIError", "boom"⟩ rfl⟩

/-- **C6.** For every message whose classification succeeds with a label
whose stripped, lowered form lies outside `{meet, calendar, upload,
feedback}` (the empty string included), the pipeline returns the fixed
"did not understand" text, the pool file is untouched, and the only external
call of the run is the single classification call. -/
theorem unrecognized_intent_no_mutation (env : Env) (mb wa nm : String)
    (fp : Option String) (raw : String) (h : env.intentReply = .ok raw)
    (h1 : pyLower (pyStrip raw) ≠ "feedback")
    (h2 : pyLower (pyStrip raw) ≠ "upload")
    (h3 : pyLower (pyStrip raw) ≠ "meet")
    (h4 : pyLower (pyStrip raw) ≠ "calendar") :
    (generate_response env mb wa nm fp).response =
      .ok "Sorry, I did not understand your request. Please try again with a valid instruction." ∧
    (generate_response env mb wa nm fp).poolAfter = env.poolState ∧
    (generate_response env mb wa nm fp).calls = [.classifyIntent] := by
  unfold generate_response
  rw [h]
  simp [h1, h2, h3, h4]

/-- Witness for C6 at the empty-string label. -/
theorem unrecognized_intent_no_mutation_witness :
    ({ envW with intentReply := .ok "" } : Env).intentReply = .ok "" ∧
    pyLower (pyStrip "") ≠ "feedback" ∧ pyLower (pyStrip "") ≠ "upload" ∧
    pyLower (pyStrip "") ≠ "meet" ∧ pyLower (pyStrip "") ≠ "calendar" ∧
    (generate_response { envW with intentReply := .ok "" } "hm" "wa1" "Ann" none).response =
      .ok "Sorry, I did not understand your request. Please try again with a valid instruction." ∧
    (generate_response { envW with intentReply := .ok "" } "hm" "wa1" "Ann" none).poolAfter =
      ({ envW with intentReply := .ok "" } : Env).poolState ∧
    (generate_response { envW with intentReply := .ok "" } "hm" "wa1" "Ann" none).calls =
      [.classifyIntent] :=
  ⟨rfl, by decide, by decide, by decide, by decide,
   unrecognized_intent_no_mutation _ "hm" "wa1" "Ann" none "" rfl
     (by decide) (by decide) (by decide) (by decide)⟩

/-- **C5.** Evaluation at the failing input: an upload-intent message with
an attached file whose folder classification yields the out-of-taxonomy
label `"random_label"`, in a configuration whose shared folder id is set.
The upload does proceed and succeed, but the Drive metadata it sends carries
no `parents` entry at all (`Call.driveUpload none`): because the call site
passes `folder_id=None` explicitly, the `SHARED_FOLDER_ID` default of
`upload_file_response` is overridden and the file lands in the service
account's private root, not in the shared/default folder the code's own
comment (line 399, "falls back to shared or default folder in upload call")
promises. -/
theorem upload_unrecognized_folder_private_root :
    (generate_response { envW with intentReply := .ok "upload", folderReply := .ok "random_label" }
        "please upload" "wa1" "Ann" (some "/tmp/notes.txt")).calls =
      [.classifyIntent, .classifyFolder, .driveUpload none] ∧
    (generate_response { envW with intentReply := .ok "upload", folderReply := .ok "random_label" }
        "please upload" "wa1" "Ann" (some "/tmp/notes.txt")).response =
      .ok "✅ File uploaded. File link: https://drive.google.com/file/d/FID123/view" ∧
    cfgW.shared_folder_id = some "SHARED" := by
  refine ⟨by decide, ?_, rfl⟩
  rfl

/-- **C2.** FIFO, exhaustive link issuance.  Seed the pool file with two
links `A`, `B` (already stripped and non-blank).  The first `"google"` call
returns `A` and rewrites the file to exactly `[B]`; the second, run on that
file, returns `B` and rewrites it to `[]`; the third, run on the now-empty
file, performs the API fallback (no pool write) and returns the fallback
result, which — whenever it differs from `A` and `B`, e.g. because the pool
held genuine links and the fallback yields a fresh one — never re-returns
`A` or `B`. -/
theorem meet_link_pool_fifo (env1 env2 env3 : Env) (A B : String)
    (hA1 : pyStrip A = A) (hA2 : A ≠ "") (hB1 : pyStrip B = B) (hB2 : B ≠ "")
    (hp1 : env1.poolState = some [A, B]) (hpe1 : env1.poolReadErr = none)
    (hp2 : env2.poolState = some [B]) (hpe2 : env2.poolReadErr = none)
    (hp3 : env3.poolState = some []) (hpe3 : env3.poolReadErr = none)
    (hfa : fallbackResult env3.meetApi ≠ A) (hfb : fallbackResult env3.meetApi ≠ B) :
    (generate_meet_link env1 "google").link = some A ∧
    (generate_meet_link env1 "google").poolAfter = some [B] ∧
    (generate_meet_link env2 "google").link = some B ∧
    (generate_meet_link env2 "google").poolAfter = some [] ∧
    (generate_meet_link env3 "google").link = some (fallbackResult env3.meetApi) ∧
    (generate_meet_link env3 "google").calls = [.poolRead, .meetApiInsert] ∧
    (generate_meet_link env3 "google").link ≠ some A ∧
    (generate_meet_link env3 "google").link ≠ some B := by
  unfold generate_meet_link
  rw [hp1, hpe1, hp2, hpe2, hp3, hpe3]
  simp [hA1, hA2, hB1, hB2, hfa, hfb]

/-- Witness for C2: a concrete two-link pool and a fallback that yields a
fresh link. -/
theorem meet_link_pool_fifo_witness :
    (pyStrip "https://meet.google.com/aaa" = "https://meet.google.com/aaa" ∧
     ("https://meet.google.com/aaa" : String) ≠ "" ∧
     pyStrip "https://meet.google.com/bbb" = "https://meet.google.com/bbb" ∧
     ("https://meet.google.com/bbb" : String) ≠ "" ∧
     fallbackResult envW.meetApi ≠ "https://meet.google.com/aaa" ∧
     fallbackResult envW.meetApi ≠ "https://meet.google.com/bbb") ∧
    (generate_meet_link { envW with poolState := some ["https://meet.google.com/aaa", "https://meet.google.com/bbb"] } "google").link
      = some "https://meet.google.com/aaa" ∧
    (generate_meet_link { envW with poolState := some ["https://meet.google.com/aaa", "https://meet.google.com/bbb"] } "google").poolAfter
      = some ["https://meet.google.com/bbb"] ∧
    (generate_meet_link { envW with poolState := some ["https://meet.google.com/bbb"] } "google").link
      = some "https://meet.google.com/bbb" ∧
    (generate_meet_link { envW with poolState := some ["https://meet.google.com/bbb"] } "google").poolAfter
      = some [] ∧
    (generate_meet_link { envW with poolState := some [] } "google").link
      = some (fallbackResult envW.meetApi) ∧
    (generate_meet_link { envW with poolState := some [] } "google").calls
      = [.poolRead, .meetApiInsert] ∧
    (generate_meet_link { envW with poolState := some [] } "google").link
      ≠ some "https://meet.google.com/aaa" ∧
    (generate_meet_link { envW with poolState := some [] } "google").link
      ≠ some "https://meet.google.com/bbb" :=
  ⟨⟨by decide, by decide, by decide, by decide, by decide, by decide⟩,
   meet_link_pool_fifo
     { envW with poolState := some ["https://meet.google.com/aaa", "https://meet.google.com/bbb"] }
     { envW with poolState := some ["https://meet.google.com/bbb"] }
     { envW with poolState := some [] }
     "https://meet.google.com/aaa" "https://meet.google.com/bbb"
     (by decide) (by decide) (by decide) (by decide)
     rfl rfl rfl rfl rfl rfl (by decide) (by decide)⟩

/-- **C3, counterexample.** For date `"2025-03-10"` and time `"09:00 AM"`
the built start/end structure is *not* the claimed
`{date_time: "2025-03-10T09:00:00+05:30", timezone: "Asia/Kolkata"}`:
CPython's `strftime("%z")` renders the offset without a colon, so the code
produces `"2025-03-10T09:00:00+0530"`. -/
theorem calendar_offset_counterexample :
    buildStartEnd edTimed ≠
      some (GTime.dateTime "2025-03-10T09:00:00+05:30" "Asia/Kolkata",
            GTime.dateTime "2025-03-10T09:00:00+05:30" "Asia/Kolkata") ∧
    buildStartEnd edTimed =
      some (GTime.dateTime "2025-03-10T09:00:00+0530" "Asia/Kolkata",
            GTime.dateTime "2025-03-10T09:00:00+0530" "Asia/Kolkata") := by
  refine ⟨by decide, by decide⟩

/-- **C3, amended.** For date `"2025-03-10"` and time `"09:00 AM"`,
`schedule_google_calendar_event` builds start and end structures both equal
to `{date_time: "2025-03-10T09:00:00+0530", timezone: "Asia/Kolkata"}`
(offset rendered without a colon, a zero-duration point event), and for
`time = "All Day"` it builds `start = end = {date: "2025-03-10"}`. -/
theorem calendar_start_end_amended :
    buildStartEnd edTimed =
      some (GTime.dateTime "2025-03-10T09:00:00+0530" "Asia/Kolkata",
            GTime.dateTime "2025-03-10T09:00:00+0530" "Asia/Kolkata") ∧
    buildStartEnd edAllDay =
      some (GTime.date "2025-03-10", GTime.date "2025-03-10") := by
  refine ⟨by decide, by decide⟩

/-- **C8.** (Spec-modelled: the free-chat handler is absent from `src/`.)
If the generative call fails mid-exchange, the persisted history still ends
with the user's latest inbound turn — it is not rolled back — and the
returned reply is exactly the one fixed apology string, whatever the
exception and prior history were. -/
theorem free_chat_failure_keeps_user_turn (persona : String)
    (store : List ChatTurn) (userMsg : String) (e : PyErr) :
    (run_free_chat persona store userMsg (.error e)).1 = chatApologyText ∧
    (⟨"user", userMsg⟩ : ChatTurn) ∈ (run_free_chat persona store userMsg (.error e)).2 ∧
    (run_free_chat persona store userMsg (.error e)).2 =
      (if store = [] then [⟨"system", persona⟩] else store) ++ [⟨"user", userMsg⟩] := by
  refine ⟨rfl, ?_, rfl⟩
  simp [run_free_chat]

/-- **C9, counterexample.** Two runs that fail on the same (upload) branch
with different underlying exceptions return *different* user-visible
strings: `upload_file_response` interpolates the exception text into
`f"Error uploading file: {e}"`. -/
theorem upload_error_leak_counterexample :
    (generate_response { envW with intentReply := .ok "upload", driveOutcome := .error ⟨"HttpError", "boom-1"⟩ }
        "up" "wa1" "Ann" (some "/tmp/notes.txt")).response =
      .ok "Error uploading file: boom-1" ∧
    (generate_response { envW with intentReply := .ok "upload", driveOutcome := .error ⟨"HttpError", "boom-2"⟩ }
        "up" "wa1" "Ann" (some "/tmp/notes.txt")).response =
      .ok "Error uploading file: boom-2" ∧
    ("Error uploading file: boom-1" : String) ≠ "Error uploading file: boom-2" := by
  refine ⟨rfl, rfl, by decide⟩

/-- **C9, amended.** Every failure branch of the pipeline *except* the
upload-error branch answers with a fixed text independent of the underlying
exception: classification failure, extraction failure, scheduling failure
(both the auth raise and the insert raise), and both meet-fallback failure
kinds each return one constant string for every exception payload.  The one
exception is the upload branch, whose failure text interpolates the
exception's own text. -/
theorem failure_texts_amended (env : Env) (mb wa nm p : String) (e : PyErr)
    (m : String) :
    (generate_response { env with intentReply := .error e } mb wa nm none).response =
      .ok "Could not determine the intent of your message." ∧
    (generate_response { env with intentReply := .ok "calendar", extractReply := .error e }
        mb wa nm none).response =
      .ok "Could not extract valid event details. Please provide a clear date for the reminder." ∧
    (generate_response { env with intentReply := .ok "calendar", extractReply := .ok "Title: S\nDate: 2025-03-10\nTime: All Day\nLocation: O\nNotes: N", calAuth := .error e } mb wa nm none).response =
      .ok "Failed to schedule the event in Google Calendar. Please try again." ∧
    (generate_response { env with intentReply := .ok "calendar", extractReply := .ok "Title: S\nDate: 2025-03-10\nTime: All Day\nLocation: O\nNotes: N", calAuth := .ok (), calendarInsert := .error e } mb wa nm none).response =
      .ok "Failed to schedule the event in Google Calendar. Please try again." ∧
    (generate_response { env with intentReply := .ok "meet", poolState := some [], poolReadErr := none, meetApi := .error ⟨"HttpError", m⟩ } mb wa nm none).response =
      .ok "🔗 **Google Meet Link:** Error generating Google Meet link using Google API." ∧
    (generate_response { env with intentReply := .ok "meet", poolState := some [], poolReadErr := none, meetApi := .error ⟨"ValueError", m⟩ } mb wa nm none).response =
      .ok "🔗 **Google Meet Link:** Error generating Google Meet link." ∧
    (generate_response { env with intentReply := .ok "upload", driveOutcome := .error e }
        mb wa nm (some p)).response =
      .ok ("Error uploading file: " ++ e.msg) :=
  ⟨rfl, rfl, rfl, rfl, rfl, rfl, rfl⟩

/-- **C4, counterexample.**  The claim fails as universally stated: for the
model reply `"Title:\nLocation: X"` the Title line is blank, so the `\s*` of
`Title:\s*(.+)` crosses the newline and the title captures the Location
line; removing that Location line (reply `"Title:"`) changes the parsed
title from `"Location: X"` to the sentinel — the other fields are *not*
always parsed "exactly as they would be with the line present".  (The
location field itself does resolve to the sentinel, as claimed.) -/
theorem missing_location_counterexample :
    (parseEventDetails "Title:\nLocation: X").title = "Location: X" ∧
    (parseEventDetails "Title:").title = "Not provided" ∧
    (parseEventDetails "Title:").location = "Not provided" ∧
    (parseEventDetails "Title:").title ≠ (parseEventDetails "Title:\nLocation: X").title := by
  refine ⟨by decide, by decide, by decide, by decide⟩

/-!
## Supporting lemmas for the C4 analysis
-/

theorem isPrefixOf_append_self (l r : List Char) : l.isPrefixOf (l ++ r) = true := by
  rw [List.isPrefixOf_iff_prefix]
  exact List.prefix_append l r

theorem prefix_through_nl {mu : List Char} (hnl : '\n' ∉ mu) :
    ∀ xs ys : List Char, mu.isPrefixOf (xs ++ '\n' :: ys) = true →
      mu.isPrefixOf xs = true := by
  induction mu with
  | nil => intro xs ys _; simp [List.isPrefixOf]
  | cons c cs ih =>
    intro xs ys h
    have hc : c ≠ '\n' := fun hceq => hnl (hceq ▸ List.mem_cons_self c cs)
    have hcs : '\n' ∉ cs := fun hmem => hnl (List.mem_cons_of_mem c hmem)
    cases xs with
    | nil =>
      exfalso
      rw [List.isPrefixOf_iff_prefix] at h
      exact hc (List.cons_prefix_cons.1 h).1
    | cons x xt =>
      rw [List.isPrefixOf_iff_prefix] at h ⊢
      rcases List.cons_prefix_cons.1 h with ⟨hcx, htail⟩
      exact List.cons_prefix_cons.2 ⟨hcx, List.isPrefixOf_iff_prefix.1
        (ih hcs xt ys (List.isPrefixOf_iff_prefix.2 htail))⟩

theorem prefix_nl_indep {mu : List Char} (hnl : '\n' ∉ mu) :
    ∀ xs r r' : List Char,
      mu.isPrefixOf (xs ++ '\n' :: r) = mu.isPrefixOf (xs ++ '\n' :: r') := by
  induction mu with
  | nil => intro xs r r'; simp [List.isPrefixOf]
  | cons c cs ih =>
    intro xs r r'
    have hc : c ≠ '\n' := fun hceq => hnl (hceq ▸ List.mem_cons_self c cs)
    have hcs : '\n' ∉ cs := fun hmem => hnl (List.mem_cons_of_mem c hmem)
    cases xs with
    | nil =>
      have hb : (c == '\n') = false := by simp [hc]
      simp [List.isPrefixOf, hb]
    | cons x xt => simp [List.isPrefixOf, ih hcs xt r r']

theorem takeWhile_append_stop {p : Char → Bool} {y : Char} (hy : p y = false)
    (xs ys : List Char) : (xs ++ y :: ys).takeWhile p = xs.takeWhile p := by
  induction xs with
  | nil => simp [List.takeWhile_cons, hy]
  | cons c cs ih =>
    simp only [List.cons_append, List.takeWhile_cons]
    cases hpc : p c <;> simp [hpc, ih]

theorem dropWhile_append_stop {p : Char → Bool} {y : Char} (hy : p y = false)
    (xs ys : List Char) :
    (xs ++ y :: ys).dropWhile p = xs.dropWhile p ++ y :: ys := by
  induction xs with
  | nil => simp [List.dropWhile_cons, hy]
  | cons c cs ih =>
    simp only [List.cons_append, List.dropWhile_cons]
    cases hpc : p c <;> simp [hpc, ih]

theorem takeWhile_append_all {p : Char → Bool} {xs : List Char}
    (h : ∀ x ∈ xs, p x = true) (ys : List Char) :
    (xs ++ ys).takeWhile p = xs ++ ys.takeWhile p := by
  induction xs with
  | nil => simp
  | cons c cs ih =>
    have hc : p c = true := h c (List.mem_cons_self c cs)
    simp only [List.cons_append, List.takeWhile_cons, hc, if_true]
    rw [ih (fun x hx => h x (List.mem_cons_of_mem c hx))]

theorem dropWhile_append_all {p : Char → Bool} {xs : List Char}
    (h : ∀ x ∈ xs, p x = true) (ys : List Char) :
    (xs ++ ys).dropWhile p = ys.dropWhile p := by
  induction xs with
  | nil => simp
  | cons c cs ih =>
    have hc : p c = true := h c (List.mem_cons_self c cs)
    simp only [List.cons_append, List.dropWhile_cons, hc, if_true]
    exact ih (fun x hx => h x (List.mem_cons_of_mem c hx))

theorem takeWhile_append_pos {p : Char → Bool} {xs : List Char}
    (h : xs.dropWhile p ≠ []) (ys : List Char) :
    (xs ++ ys).takeWhile p = xs.takeWhile p := by
  induction xs with
  | nil => simp at h
  | cons c cs ih =>
    simp only [List.cons_append, List.takeWhile_cons]
    cases hpc : p c with
    | false => simp
    | true =>
      rw [List.dropWhile_cons_of_pos hpc] at h
      simp [ih h]

theorem dropWhile_append_pos {p : Char → Bool} {xs : List Char}
    (h : xs.dropWhile p ≠ []) (ys : List Char) :
    (xs ++ ys).dropWhile p = xs.dropWhile p ++ ys := by
  induction xs with
  | nil => simp at h
  | cons c cs ih =>
    simp only [List.cons_append, List.dropWhile_cons]
    cases hpc : p c with
    | false => simp [hpc]
    | true =>
      rw [List.dropWhile_cons_of_pos hpc] at h
      simp [hpc, ih h]

theorem clash_not_prefix :
    ∀ (mu q : List Char), clash mu q = true →
      ∀ r, mu.isPrefixOf (q ++ r) = false := by
  intro mu
  induction mu with
  | nil => intro q h r; simp [clash] at h
  | cons a as_ ih =>
    intro q h r
    cases q with
    | nil => simp [clash] at h
    | cons b bs =>
      simp only [clash, Bool.or_eq_true, decide_eq_true_eq] at h
      rcases h with hab | hcl
      · have hb : (a == b) = false := by simp [hab]
        simp [List.isPrefixOf, hb]
      · simp [List.isPrefixOf, ih bs hcl r]

theorem hasOccur_concat {mu p t : List Char} (hp : clashAll mu p = true)
    (ht : hasOccur mu t = false) : hasOccur mu (p ++ t) = false := by
  induction p with
  | nil => simpa using ht
  | cons c cs ih =>
    simp only [clashAll, Bool.and_eq_true] at hp
    simp only [List.cons_append, hasOccur, Bool.or_eq_false_iff]
    refine ⟨?_, ih hp.2⟩
    have := clash_not_prefix mu (c :: cs) hp.1 t
    simpa using this

theorem hasOccur_ne_nil {mu s : List Char} (h : hasOccur mu s = false) :
    mu ≠ [] := by
  intro hmu
  subst hmu
  cases s <;> simp [hasOccur, List.isPrefixOf] at h

theorem hasOccur_line_append {mu line rest : List Char} (hnl : '\n' ∉ mu)
    (hline : hasOccur mu line = false) (hrest : hasOccur mu rest = false) :
    hasOccur mu (line ++ '\n' :: rest) = false := by
  induction line with
  | nil =>
    rcases (List.exists_cons_of_ne_nil (hasOccur_ne_nil hline)) with ⟨c, cs, rfl⟩
    have hc : c ≠ '\n' := fun hceq => hnl (hceq ▸ List.mem_cons_self c cs)
    have hb : (c == '\n') = false := by simp [hc]
    simp [hasOccur, List.isPrefixOf, hb, hrest]
  | cons x xt ih =>
    simp only [hasOccur, Bool.or_eq_false_iff] at hline
    simp only [List.cons_append, hasOccur, Bool.or_eq_false_iff]
    refine ⟨?_, ih hline.2⟩
    cases hpre : mu.isPrefixOf (x :: (xt ++ '\n' :: rest)) with
    | false => rfl
    | true =>
      exfalso
      have : mu.isPrefixOf (x :: xt) = true := by
        have := prefix_through_nl hnl (x :: xt) rest (by simpa using hpre)
        exact this
      rw [this] at hline
      exact absurd hline.1 (by simp)

theorem reSearch_none {mu : List Char} (f : List Char → Option (List Char)) :
    ∀ {s : List Char}, hasOccur mu s = false → reSearch mu f s = none := by
  intro s
  induction s with
  | nil => intro _; rfl
  | cons c rest ih =>
    intro h
    simp only [hasOccur, Bool.or_eq_false_iff] at h
    simp [reSearch, h.1, ih h.2]

theorem reSearch_cons_eq (mu : List Char) (f : List Char → Option (List Char))
    (c : Char) (rest : List Char) :
    reSearch mu f (c :: rest) =
      (match (if mu.isPrefixOf (c :: rest) then f (List.drop mu.length (c :: rest))
              else none) with
       | some cap => some cap
       | none => reSearch mu f rest) := rfl

theorem reSearch_skip_line {mu : List Char} (f : List Char → Option (List Char))
    (hnl : '\n' ∉ mu) :
    ∀ {line : List Char} (y : List Char), hasOccur mu line = false →
      reSearch mu f (line ++ '\n' :: y) = reSearch mu f y := by
  intro line
  induction line with
  | nil =>
    intro y h
    rcases (List.exists_cons_of_ne_nil (hasOccur_ne_nil h)) with ⟨c, cs, rfl⟩
    have hc : c ≠ '\n' := fun hceq => hnl (hceq ▸ List.mem_cons_self c cs)
    have hb : (c == '\n') = false := by simp [hc]
    rw [List.nil_append, reSearch_cons_eq]
    simp [List.isPrefixOf, hb]
  | cons x xt ih =>
    intro y h
    simp only [hasOccur, Bool.or_eq_false_iff] at h
    have hpre : mu.isPrefixOf (x :: (xt ++ '\n' :: y)) = false := by
      cases hp : mu.isPrefixOf (x :: (xt ++ '\n' :: y)) with
      | false => rfl
      | true =>
        exfalso
        have := prefix_through_nl hnl (x :: xt) y (by simpa using hp)
        rw [this] at h
        exact absurd h.1 (by simp)
    rw [List.cons_append, reSearch_cons_eq, hpre]
    simpa using ih y h.2

theorem reSearch_head (c : Char) (cs z : List Char)
    (f : List Char → Option (List Char)) :
    reSearch (c :: cs) f ((c :: cs) ++ z) =
      (match f z with
       | some cap => some cap
       | none => reSearch (c :: cs) f (cs ++ z)) := by
  have hpre : (c :: cs).isPrefixOf (c :: (cs ++ z)) = true := by
    simpa [List.isPrefixOf] using isPrefixOf_append_self cs z
  have hdrop : List.drop (c :: cs).length (c :: (cs ++ z)) = z := by
    rw [List.length_cons, List.drop_succ_cons, List.drop_left]
  rw [List.cons_append, reSearch_cons_eq, hpre, hdrop]
  simp

theorem dropWhile_space_cons {s : List Char}
    (h : ∀ x, s.head? = some x → isPySpace x = false) :
    (' ' :: s).dropWhile isPySpace = s := by
  cases s with
  | nil => decide
  | cons c cs =>
    rw [List.dropWhile_cons_of_pos (by decide),
      List.dropWhile_cons_of_neg (by simp [h c rfl])]

theorem dotAfter_eval {s : List Char} (hs : s.dropWhile isPySpace = s)
    (hne : s ≠ []) : dotAfter (' ' :: s) = some (s.takeWhile (· ≠ '\n')) := by
  unfold dotAfter
  rw [List.dropWhile_cons_of_pos (by decide), hs]
  rcases List.exists_cons_of_ne_nil hne with ⟨c, cs, rfl⟩
  rfl

theorem dropWhile_self_of_head {s : List Char}
    (h : ∀ x, s.head? = some x → isPySpace x = false) :
    s.dropWhile isPySpace = s := by
  cases s with
  | nil => rfl
  | cons c cs => rw [List.dropWhile_cons_of_neg (by simp [h c rfl])]

theorem dotAfter_line {t : List Char} (Y : List Char) (ht0 : t ≠ [])
    (ht1 : ∀ x, t.head? = some x → isPySpace x = false)
    (ht2 : ∀ x ∈ t, x ≠ '\n') :
    dotAfter (' ' :: (t ++ '\n' :: Y)) = some t := by
  have hhead : ∀ x, (t ++ '\n' :: Y).head? = some x → isPySpace x = false := by
    rcases List.exists_cons_of_ne_nil ht0 with ⟨c, cs, rfl⟩
    intro x hx
    simp only [List.cons_append, List.head?_cons, Option.some.injEq] at hx
    exact hx ▸ ht1 c rfl
  rw [dotAfter_eval (dropWhile_self_of_head hhead) (by simp [List.append_ne_nil_of_left_ne_nil, ht0]),
    takeWhile_append_stop (by decide), List.takeWhile_eq_self_iff.2 ?onLine]
  case onLine =>
    intro a ha
    simpa using ht2 a ha

theorem checksAt_nl_indep {ps : List (Char → Bool)}
    (hps : ∀ p ∈ ps, p '\n' = false) :
    ∀ (d r r' : List Char),
      checksAt ps (d ++ '\n' :: r) = checksAt ps (d ++ '\n' :: r') := by
  induction ps with
  | nil => intro d r r'; rfl
  | cons p ps' ih =>
    intro d r r'
    have hp : p '\n' = false := hps p (List.mem_cons_self p ps')
    have hps' : ∀ q ∈ ps', q '\n' = false :=
      fun q hq => hps q (List.mem_cons_of_mem p hq)
    cases d with
    | nil => simp [checksAt, hp]
    | cons c cs => simp [checksAt, ih hps' cs r r']

theorem checksAt_nl_bound {ps : List (Char → Bool)}
    (hps : ∀ p ∈ ps, p '\n' = false) :
    ∀ {d r : List Char}, checksAt ps (d ++ '\n' :: r) = true →
      ps.length ≤ d.length := by
  induction ps with
  | nil => intro d r _; simp
  | cons p ps' ih =>
    intro d r h
    have hp : p '\n' = false := hps p (List.mem_cons_self p ps')
    have hps' : ∀ q ∈ ps', q '\n' = false :=
      fun q hq => hps q (List.mem_cons_of_mem p hq)
    cases d with
    | nil => simp [checksAt, hp] at h
    | cons c cs =>
      simp only [List.cons_append, checksAt, Bool.and_eq_true] at h
      simpa using ih hps' h.2

theorem ymdSpec_nl : ∀ p ∈ ymdSpec, p '\n' = false := by
  intro p hp
  simp only [ymdSpec, List.mem_cons, List.not_mem_nil, or_false] at hp
  rcases hp with rfl | rfl | rfl | rfl | rfl | rfl | rfl | rfl | rfl | rfl <;> decide

theorem dateAfter_eval {s : List Char} (hs : s.dropWhile isPySpace = s) :
    dateAfter (' ' :: s) =
      (if ymdOK s then some (s.take 10)
       else if "Not provided".data.isPrefixOf s then some "Not provided".data
       else none) := by
  unfold dateAfter
  rw [List.dropWhile_cons_of_pos (by decide), hs]

theorem dateAfter_nl_indep {d : List Char} (rA rB : List Char) (hd0 : d ≠ [])
    (hd1 : ∀ x, d.head? = some x → isPySpace x = false) :
    dateAfter (' ' :: (d ++ '\n' :: rA)) = dateAfter (' ' :: (d ++ '\n' :: rB)) := by
  rcases List.exists_cons_of_ne_nil hd0 with ⟨c, cs, rfl⟩
  have hc : isPySpace c = false := hd1 c rfl
  have hA : ((c :: cs) ++ '\n' :: rA).dropWhile isPySpace = (c :: cs) ++ '\n' :: rA := by
    rw [List.cons_append, List.dropWhile_cons_of_neg (by simp [hc])]
  have hB : ((c :: cs) ++ '\n' :: rB).dropWhile isPySpace = (c :: cs) ++ '\n' :: rB := by
    rw [List.cons_append, List.dropWhile_cons_of_neg (by simp [hc])]
  rw [dateAfter_eval hA, dateAfter_eval hB]
  have hymd : ymdOK ((c :: cs) ++ '\n' :: rA) = ymdOK ((c :: cs) ++ '\n' :: rB) := by
    unfold ymdOK
    exact checksAt_nl_indep ymdSpec_nl (c :: cs) rA rB
  cases hy : ymdOK ((c :: cs) ++ '\n' :: rA) with
  | true =>
    have hyB : ymdOK ((c :: cs) ++ '\n' :: rB) = true := hymd ▸ hy
    have hlen : (10 : Nat) ≤ (c :: cs).length := by
      have := checksAt_nl_bound ymdSpec_nl (d := c :: cs) (r := rA) (by unfold ymdOK at hy; exact hy)
      simpa [ymdSpec] using this
    rw [hyB]
    simp only [if_true]
    rw [List.take_append_of_le_length hlen, List.take_append_of_le_length hlen]
  | false =>
    have hyB : ymdOK ((c :: cs) ++ '\n' :: rB) = false := hymd ▸ hy
    rw [hyB]
    simp only [Bool.false_eq_true, if_false]
    rw [@prefix_nl_indep "Not provided".data (by decide) (c :: cs) rA rB]

theorem timeAfter_eval {s : List Char} (hs : s.dropWhile isPySpace = s) :
    timeAfter (' ' :: s) =
      (if s.takeWhile isDigitColon ≠ [] ∧
          ((s.dropWhile isDigitColon).dropWhile isPySpace).takeWhile isAPM ≠ [] then
        some (s.takeWhile isDigitColon ++
          (s.dropWhile isDigitColon).takeWhile isPySpace ++
          ((s.dropWhile isDigitColon).dropWhile isPySpace).takeWhile isAPM)
       else if "All Day".data.isPrefixOf s then some "All Day".data
       else if "Not provided".data.isPrefixOf s then some "Not provided".data
       else none) := by
  unfold timeAfter
  rw [List.dropWhile_cons_of_pos (by decide), hs]

theorem timeAfter_nl_indep {ti rA rB : List Char} (hti0 : ti ≠ [])
    (hti1 : ∀ x, ti.head? = some x → isPySpace x = false)
    (hA : ∃ a as_, rA = a :: as_ ∧ isPySpace a = false ∧ isAPM a = false)
    (hB : ∃ a as_, rB = a :: as_ ∧ isPySpace a = false ∧ isAPM a = false) :
    timeAfter (' ' :: (ti ++ '\n' :: rA)) = timeAfter (' ' :: (ti ++ '\n' :: rB)) := by
  rcases List.exists_cons_of_ne_nil hti0 with ⟨x, xs, rfl⟩
  have hx : isPySpace x = false := hti1 x rfl
  have hsA : ((x :: xs) ++ '\n' :: rA).dropWhile isPySpace = (x :: xs) ++ '\n' :: rA := by
    rw [List.cons_append, List.dropWhile_cons_of_neg (by simp [hx])]
  have hsB : ((x :: xs) ++ '\n' :: rB).dropWhile isPySpace = (x :: xs) ++ '\n' :: rB := by
    rw [List.cons_append, List.dropWhile_cons_of_neg (by simp [hx])]
  rw [timeAfter_eval hsA, timeAfter_eval hsB]
  rw [takeWhile_append_stop (p := isDigitColon) (by decide) (x :: xs) rA,
    takeWhile_append_stop (p := isDigitColon) (by decide) (x :: xs) rB,
    dropWhile_append_stop (p := isDigitColon) (by decide) (x :: xs) rA,
    dropWhile_append_stop (p := isDigitColon) (by decide) (x :: xs) rB,
    @prefix_nl_indep "All Day".data (by decide) (x :: xs) rA rB,
    @prefix_nl_indep "Not provided".data (by decide) (x :: xs) rA rB]
  rcases hA with ⟨a, as_, rfl, ha1, ha2⟩
  rcases hB with ⟨b, bs, rfl, hb1, hb2⟩
  by_cases hsp : ((x :: xs).dropWhile isDigitColon).dropWhile isPySpace = []
  · have hall : ∀ y ∈ (x :: xs).dropWhile isDigitColon, isPySpace y = true :=
      List.dropWhile_eq_nil_iff.1 hsp
    rw [dropWhile_append_all hall ('\n' :: a :: as_),
      dropWhile_append_all hall ('\n' :: b :: bs),
      List.dropWhile_cons_of_pos (p := isPySpace) (a := '\n') (l := a :: as_) (by decide),
      List.dropWhile_cons_of_pos (p := isPySpace) (a := '\n') (l := b :: bs) (by decide),
      List.dropWhile_cons_of_neg (p := isPySpace) (a := a) (l := as_) (by simp [ha1]),
      List.dropWhile_cons_of_neg (p := isPySpace) (a := b) (l := bs) (by simp [hb1]),
      List.takeWhile_cons_of_neg (p := isAPM) (a := a) (l := as_) (by simp [ha2]),
      List.takeWhile_cons_of_neg (p := isAPM) (a := b) (l := bs) (by simp [hb2])]
    simp
  · rw [takeWhile_append_pos hsp ('\n' :: a :: as_),
      takeWhile_append_pos hsp ('\n' :: b :: bs),
      dropWhile_append_pos hsp ('\n' :: a :: as_),
      dropWhile_append_pos hsp ('\n' :: b :: bs),
      takeWhile_append_stop (p := isAPM) (by decide)
        (((x :: xs).dropWhile isDigitColon).dropWhile isPySpace) (a :: as_),
      takeWhile_append_stop (p := isAPM) (by decide)
        (((x :: xs).dropWhile isDigitColon).dropWhile isPySpace) (b :: bs)]

theorem goodContent_spec {c : List Char} (h : goodContent c = true) :
    c ≠ [] ∧ (∀ x, c.head? = some x → isPySpace x = false) ∧
    (∀ x ∈ c, x ≠ '\n') ∧
    hasOccur "Title:".data c = false ∧ hasOccur "Date:".data c = false ∧
    hasOccur "Time:".data c = false ∧ hasOccur "Location:".data c = false ∧
    hasOccur "Notes:".data c = false := by
  cases c with
  | nil => simp [goodContent] at h
  | cons x cs =>
    unfold goodContent at h
    simp only [Bool.and_eq_true, Bool.not_eq_true'] at h
    obtain ⟨⟨⟨⟨⟨⟨hhead, hnl⟩, hT⟩, hD⟩, hTi⟩, hL⟩, hN⟩ := h
    refine ⟨by simp, ?_, ?_, hT, hD, hTi, hL, hN⟩
    · intro y hy
      simp only [List.head?_cons, Option.some.injEq] at hy
      exact hy ▸ hhead
    · intro y hy
      have := List.all_eq_true.1 hnl y hy
      simpa using this

theorem reSearch_line_exact (c : Char) (cs z : List Char)
    (f : List Char → Option (List Char))
    (hocc : hasOccur (c :: cs) (cs ++ z) = false) :
    reSearch (c :: cs) f ((c :: cs) ++ z) = f z := by
  rw [reSearch_head, reSearch_none f hocc]
  cases f z <;> rfl

theorem dotAfter_last {n : List Char} (hn0 : n ≠ [])
    (hn1 : ∀ x, n.head? = some x → isPySpace x = false)
    (hn2 : ∀ x ∈ n, x ≠ '\n') : dotAfter (' ' :: n) = some n := by
  rw [dotAfter_eval (dropWhile_self_of_head hn1) hn0,
    List.takeWhile_eq_self_iff.2 (fun x hx => by simpa using hn2 x hx)]

theorem title_line_eval (t Y : List Char) (hgt : goodContent t = true) :
    reSearch "Title:".data dotAfter (("Title: ".data ++ t) ++ '\n' :: Y) = some t := by
  obtain ⟨h0, h1, h2, -⟩ := goodContent_spec hgt
  show reSearch ('T' :: "itle:".data) dotAfter
    (('T' :: "itle:".data) ++ (' ' :: (t ++ '\n' :: Y))) = some t
  rw [reSearch_head, dotAfter_line Y h0 h1 h2]

theorem notes_line_eval (n : List Char) (hgn : goodContent n = true) :
    reSearch "Notes:".data dotAfter ("Notes: ".data ++ n) = some n := by
  obtain ⟨h0, h1, h2, -⟩ := goodContent_spec hgn
  show reSearch ('N' :: "otes:".data) dotAfter
    (('N' :: "otes:".data) ++ (' ' :: n)) = some n
  rw [reSearch_head, dotAfter_last h0 h1 h2]

theorem date_line_eval (d Y : List Char)
    (hocc : hasOccur "Date:".data ("ate: ".data ++ (d ++ '\n' :: Y)) = false) :
    reSearch "Date:".data dateAfter (("Date: ".data ++ d) ++ '\n' :: Y) =
      dateAfter (' ' :: (d ++ '\n' :: Y)) := by
  show reSearch ('D' :: "ate:".data) dateAfter
    (('D' :: "ate:".data) ++ (' ' :: (d ++ '\n' :: Y))) = _
  exact reSearch_line_exact 'D' "ate:".data (' ' :: (d ++ '\n' :: Y)) dateAfter hocc

theorem time_line_eval (ti Y : List Char)
    (hocc : hasOccur "Time:".data ("ime: ".data ++ (ti ++ '\n' :: Y)) = false) :
    reSearch "Time:".data timeAfter (("Time: ".data ++ ti) ++ '\n' :: Y) =
      timeAfter (' ' :: (ti ++ '\n' :: Y)) := by
  show reSearch ('T' :: "ime:".data) timeAfter
    (('T' :: "ime:".data) ++ (' ' :: (ti ++ '\n' :: Y))) = _
  exact reSearch_line_exact 'T' "ime:".data (' ' :: (ti ++ '\n' :: Y)) timeAfter hocc

theorem c4_fields (t d ti lo n : List Char) (hgt : goodContent t = true)
    (hgd : goodContent d = true) (hgti : goodContent ti = true)
    (hglo : goodContent lo = true) (hgn : goodContent n = true) :
    reSearch "Title:".data dotAfter (replyAll t d ti lo n) = some t ∧
    reSearch "Title:".data dotAfter (replyNoLoc t d ti n) = some t ∧
    reSearch "Date:".data dateAfter (replyAll t d ti lo n) =
      reSearch "Date:".data dateAfter (replyNoLoc t d ti n) ∧
    reSearch "Time:".data timeAfter (replyAll t d ti lo n) =
      reSearch "Time:".data timeAfter (replyNoLoc t d ti n) ∧
    reSearch "Notes:".data dotAfter (replyAll t d ti lo n) = some n ∧
    reSearch "Notes:".data dotAfter (replyNoLoc t d ti n) = some n ∧
    reSearch "Location:".data dotAfter (replyNoLoc t d ti n) = none := by
  obtain ⟨ht0, ht1, ht2, htT, htD, htTi, htL, htN⟩ := goodContent_spec hgt
  obtain ⟨hd0, hd1, hd2, hdT, hdD, hdTi, hdL, hdN⟩ := goodContent_spec hgd
  obtain ⟨hti0, hti1, hti2, htiT, htiD, htiTi, htiL, htiN⟩ := goodContent_spec hgti
  obtain ⟨hlo0, hlo1, hlo2, hloT, hloD, hloTi, hloL, hloN⟩ := goodContent_spec hglo
  obtain ⟨hn0, hn1, hn2, hnT, hnD, hnTi, hnL, hnN⟩ := goodContent_spec hgn
  simp only [replyAll, replyNoLoc, labelLine]
  refine ⟨?_, ?_, ?_, ?_, ?_, ?_, ?_⟩
  -- Title, reply with the Location line
  · exact title_line_eval t _ hgt
  -- Title, reply without the Location line
  · exact title_line_eval t _ hgt
  -- Date: both searches reduce to the at-line group match, equal by
  -- newline-independence
  · have hTd := hasOccur_concat (p := "Title: ".data) (by decide) htD
    rw [reSearch_skip_line dateAfter (by decide) _ hTd,
      reSearch_skip_line dateAfter (by decide) _ hTd]
    have hNd := hasOccur_concat (p := "Notes: ".data) (by decide) hnD
    have hLd := hasOccur_concat (p := "Location: ".data) (by decide) hloD
    have hTid := hasOccur_concat (p := "Time: ".data) (by decide) htiD
    have hrestA := hasOccur_line_append (by decide) hTid
      (hasOccur_line_append (by decide) hLd hNd)
    have hrestB := hasOccur_line_append (by decide) hTid hNd
    rw [date_line_eval d _ (hasOccur_concat (p := "ate: ".data) (by decide)
        (hasOccur_line_append (by decide) hdD hrestA)),
      date_line_eval d _ (hasOccur_concat (p := "ate: ".data) (by decide)
        (hasOccur_line_append (by decide) hdD hrestB))]
    exact dateAfter_nl_indep _ _ hd0 hd1
  -- Time: skip two lines, then the at-line match, equal by
  -- newline-independence
  · have hTt := hasOccur_concat (p := "Title: ".data) (by decide) htTi
    have hDt := hasOccur_concat (p := "Date: ".data) (by decide) hdTi
    rw [reSearch_skip_line timeAfter (by decide) _ hTt,
      reSearch_skip_line timeAfter (by decide) _ hTt,
      reSearch_skip_line timeAfter (by decide) _ hDt,
      reSearch_skip_line timeAfter (by decide) _ hDt]
    have hNt := hasOccur_concat (p := "Notes: ".data) (by decide) hnTi
    have hLt := hasOccur_concat (p := "Location: ".data) (by decide) hloTi
    have hrestA := hasOccur_line_append (by decide) hLt hNt
    rw [time_line_eval ti _ (hasOccur_concat (p := "ime: ".data) (by decide)
        (hasOccur_line_append (by decide) htiTi hrestA)),
      time_line_eval ti _ (hasOccur_concat (p := "ime: ".data) (by decide)
        (hasOccur_line_append (by decide) htiTi hNt))]
    exact timeAfter_nl_indep hti0 hti1
      ⟨'L', "ocation: ".data ++ lo ++ '\n' :: ("Notes: ".data ++ n), rfl,
        by decide, by decide⟩
      ⟨'N', "otes: ".data ++ n, rfl, by decide, by decide⟩
  -- Notes, reply with the Location line
  · have hTn := hasOccur_concat (p := "Title: ".data) (by decide) htN
    have hDn := hasOccur_concat (p := "Date: ".data) (by decide) hdN
    have hTin := hasOccur_concat (p := "Time: ".data) (by decide) htiN
    have hLn := hasOccur_concat (p := "Location: ".data) (by decide) hloN
    rw [reSearch_skip_line dotAfter (by decide) _ hTn,
      reSearch_skip_line dotAfter (by decide) _ hDn,
      reSearch_skip_line dotAfter (by decide) _ hTin,
      reSearch_skip_line dotAfter (by decide) _ hLn]
    exact notes_line_eval n hgn
  -- Notes, reply without the Location line
  · have hTn := hasOccur_concat (p := "Title: ".data) (by decide) htN
    have hDn := hasOccur_concat (p := "Date: ".data) (by decide) hdN
    have hTin := hasOccur_concat (p := "Time: ".data) (by decide) htiN
    rw [reSearch_skip_line dotAfter (by decide) _ hTn,
      reSearch_skip_line dotAfter (by decide) _ hDn,
      reSearch_skip_line dotAfter (by decide) _ hTin]
    exact notes_line_eval n hgn
  -- Location never occurs in the reply without its line
  · refine reSearch_none dotAfter ?_
    have hTl := hasOccur_concat (p := "Title: ".data) (by decide) htL
    have hDl := hasOccur_concat (p := "Date: ".data) (by decide) hdL
    have hTil := hasOccur_concat (p := "Time: ".data) (by decide) htiL
    have hNl := hasOccur_concat (p := "Notes: ".data) (by decide) hnL
    exact hasOccur_line_append (by decide) hTl
      (hasOccur_line_append (by decide) hDl
        (hasOccur_line_append (by decide) hTil hNl))

/-- **C4, amended.**  Extraction is total: whenever the generative call
returns a reply, the parse succeeds on it — no reply raises.  Whenever the
substring `"Location:"` does not occur in the reply, the location field is
the sentinel `"Not provided"`.  And for every reply in the well-formed
five-line schema (`Title:`/`Date:`/`Time:`/`Location:`/`Notes:` in order,
each field's content nonempty, on its own line, not starting with
whitespace and not containing a field label), removing the `Location:` line
yields the sentinel location while title, date, time and notes parse
exactly as they would with the line present.  (The well-formedness proviso
is what the counterexample forces: a blank field line lets `\s*` cross the
newline and absorb an adjacent line.) -/
theorem missing_location_amended (env : Env) (reply : String)
    (hok : env.extractReply = .ok reply)
    (hno : hasOccur "Location:".data reply.data = false)
    (t d ti lo n : List Char) (hgt : goodContent t = true)
    (hgd : goodContent d = true) (hgti : goodContent ti = true)
    (hglo : goodContent lo = true) (hgn : goodContent n = true) :
    extract_event_details env = some (parseEventDetails reply) ∧
    (parseEventDetails reply).location = "Not provided" ∧
    (parseEventDetails ⟨replyNoLoc t d ti n⟩).location = "Not provided" ∧
    (parseEventDetails ⟨replyNoLoc t d ti n⟩).title =
      (parseEventDetails ⟨replyAll t d ti lo n⟩).title ∧
    (parseEventDetails ⟨replyNoLoc t d ti n⟩).date =
      (parseEventDetails ⟨replyAll t d ti lo n⟩).date ∧
    (parseEventDetails ⟨replyNoLoc t d ti n⟩).time =
      (parseEventDetails ⟨replyAll t d ti lo n⟩).time ∧
    (parseEventDetails ⟨replyNoLoc t d ti n⟩).notes =
      (parseEventDetails ⟨replyAll t d ti lo n⟩).notes := by
  obtain ⟨hta, htb, hdate, htime, hna, hnb, hlocb⟩ :=
    c4_fields t d ti lo n hgt hgd hgti hglo hgn
  refine ⟨?_, ?_, ?_, ?_, ?_, ?_, ?_⟩
  · unfold extract_event_details
    rw [hok]
  · simp [parseEventDetails, reSearch_none dotAfter hno]
  · simp [parseEventDetails, hlocb]
  · simp [parseEventDetails, hta, htb]
  · simp [parseEventDetails, hdate]
  · simp [parseEventDetails, htime]
  · simp [parseEventDetails, hna, hnb]

/-- Witness for the amended C4 at a concrete well-formed reply and concrete
schema contents. -/
theorem missing_location_amended_witness :
    ({ envW with extractReply := .ok "Title: Standup\nDate: 2025-03-10\nTime: 09:00 AM\nNotes: bring cookies" } : Env).extractReply =
      .ok "Title: Standup\nDate: 2025-03-10\nTime: 09:00 AM\nNotes: bring cookies" ∧
    hasOccur "Location:".data
      ("Title: Standup\nDate: 2025-03-10\nTime: 09:00 AM\nNotes: bring cookies" : String).data = false ∧
    goodContent "Standup".data = true ∧
    goodContent "2025-03-10".data = true ∧
    goodContent "09:00 AM".data = true ∧
    goodContent "Office".data = true ∧
    goodContent "bring cookies".data = true ∧
    (extract_event_details { envW with extractReply := .ok "Title: Standup\nDate: 2025-03-10\nTime: 09:00 AM\nNotes: bring cookies" } =
      some (parseEventDetails "Title: Standup\nDate: 2025-03-10\nTime: 09:00 AM\nNotes: bring cookies") ∧
     (parseEventDetails "Title: Standup\nDate: 2025-03-10\nTime: 09:00 AM\nNotes: bring cookies").location = "Not provided" ∧
     (parseEventDetails ⟨replyNoLoc "Standup".data "2025-03-10".data "09:00 AM".data "bring cookies".data⟩).location = "Not provided" ∧
     (parseEventDetails ⟨replyNoLoc "Standup".data "2025-03-10".data "09:00 AM".data "bring cookies".data⟩).title =
       (parseEventDetails ⟨replyAll "Standup".data "2025-03-10".data "09:00 AM".data "Office".data "bring cookies".data⟩).title ∧
     (parseEventDetails ⟨replyNoLoc "Standup".data "2025-03-10".data "09:00 AM".data "bring cookies".data⟩).date =
       (parseEventDetails ⟨replyAll "Standup".data "2025-03-10".data "09:00 AM".data "Office".data "bring cookies".data⟩).date ∧
     (parseEventDetails ⟨replyNoLoc "Standup".data "2025-03-10".data "09:00 AM".data "bring cookies".data⟩).time =
       (parseEventDetails ⟨replyAll "Standup".data "2025-03-10".data "09:00 AM".data "Office".data "bring cookies".data⟩).time ∧
     (parseEventDetails ⟨replyNoLoc "Standup".data "2025-03-10".data "09:00 AM".data "bring cookies".data⟩).notes =
       (parseEventDetails ⟨replyAll "Standup".data "2025-03-10".data "09:00 AM".data "Office".data "bring cookies".data⟩).notes) :=
  ⟨rfl, by decide, by decide, by decide, by decide, by decide, by decide,
   missing_location_amended _ _ rfl (by decide)
     "Standup".data "2025-03-10".data "09:00 AM".data "Office".data "bring cookies".data
     (by decide) (by decide) (by decide) (by decide) (by decide)⟩
